import Mathlib

/-!
A verification development for the `sigmadsp` protocol bridge and DSP
register control layer.

The TCP connection handler (`sigmadsp/communication/tcpipadau145x.py`) is
embedded as pure functions over byte streams, modelled as `List Nat` with
every entry a byte value.  A connection's incoming TCP data is the list of
bytes the peer delivers before closing; a `recv` that returns zero bytes
corresponds to reading past the end of that list.  The handler's side
effects (pipe sends, pipe receives, socket sends, closing the connection)
are recorded as an event trace.

The DSP register control layer (`sigmadsp/hardware/dsp.py`) is embedded
with real numbers standing for Python floats and an explicit register
state.
-/

/-- Modelled from the spec: the request types of the Message Contract
(`sigmadsp/communication/base.py`, not under `src/`): `WriteRequest`,
`SafeloadRequest` and `ReadRequest` value types exchanged with the
chip-owning process. -/
inductive Request where
  | WriteRequest (address : Nat) (data : List Nat)
  | SafeloadRequest (address : Nat) (data : List Nat)
  | ReadRequest (address : Nat) (length : Nat)
deriving DecidableEq

/-- One observable action of the connection handler: a pipe send, a
blocking pipe receive (carrying the `ReadResult` data it obtained), a
socket send of a response frame, or shutting down and closing the
connection socket. -/
inductive Event where
  | sendRequest (request : Request)
  | recvResult (data : List Nat)
  | sendSocket (data : List Nat)
  | closed
deriving DecidableEq

/-- Python bytearray slice assignment `buffer[offset : offset + bs.length] = bs`
for `offset ≤ buffer.length`: the codec helpers store fields with it, so a
store that reaches past the end of the buffer lengthens the buffer. -/
def setSlice (buffer : List Nat) (offset : Nat) (bs : List Nat) : List Nat :=
  buffer.take offset ++ bs ++ buffer.drop (offset + bs.length)

/-- Modelled from the spec: `bytes_to_int8` of `sigmadsp/helper/conversion.py`
(not under `src/`), reading one unsigned byte at `offset`. -/
def bytes_to_int8 (buffer : List Nat) (offset : Nat) : Nat :=
  buffer.getD offset 0

/-- Modelled from the spec: `bytes_to_int16` of `sigmadsp/helper/conversion.py`
(not under `src/`), reading an unsigned 16-bit big-endian integer. -/
def bytes_to_int16 (buffer : List Nat) (offset : Nat) : Nat :=
  256 * buffer.getD offset 0 + buffer.getD (offset + 1) 0

/-- Modelled from the spec: `bytes_to_int32` of `sigmadsp/helper/conversion.py`
(not under `src/`), reading an unsigned 32-bit big-endian integer. -/
def bytes_to_int32 (buffer : List Nat) (offset : Nat) : Nat :=
  16777216 * buffer.getD offset 0 + 65536 * buffer.getD (offset + 1) 0 +
    256 * buffer.getD (offset + 2) 0 + buffer.getD (offset + 3) 0

/-- Modelled from the spec: `int8_to_bytes` of `sigmadsp/helper/conversion.py`
(not under `src/`), storing one byte at `offset` by slice assignment. -/
def int8_to_bytes (value : Nat) (buffer : List Nat) (offset : Nat) : List Nat :=
  setSlice buffer offset [value % 256]

/-- Modelled from the spec: `int16_to_bytes` of `sigmadsp/helper/conversion.py`
(not under `src/`), storing a 16-bit big-endian integer by slice assignment. -/
def int16_to_bytes (value : Nat) (buffer : List Nat) (offset : Nat) : List Nat :=
  setSlice buffer offset [value / 256 % 256, value % 256]

/-- Modelled from the spec: `int32_to_bytes` of `sigmadsp/helper/conversion.py`
(not under `src/`), storing a 32-bit big-endian integer by slice assignment. -/
def int32_to_bytes (value : Nat) (buffer : List Nat) (offset : Nat) : List Nat :=
  setSlice buffer offset
    [value / 16777216 % 256, value / 65536 % 256, value / 256 % 256, value % 256]

/-- `SigmaStudioRequestHandler.receive_amount`: loop on `recv` until
`total_size` bytes have accumulated.  On the stream model this succeeds with
the first `total_size` bytes and the remaining stream exactly when the
stream still holds that many bytes; otherwise some `recv` returns zero
bytes, the socket is shut down and closed, and `ConnectionError` is raised
(`none`). -/
def receive_amount (stream : List Nat) (total_size : Nat) :
    Option (List Nat × List Nat) :=
  if total_size ≤ stream.length then
    some (stream.take total_size, stream.drop total_size)
  else
    none

/-- `SigmaStudioRequestHandler.handle_write_data`: decode the write header,
receive the declared payload from the stream, and send a `SafeloadRequest`
or `WriteRequest` on the pipe.  Returns the emitted events and the
remaining stream, or `none` on `ConnectionError`. -/
def handle_write_data (packet_header : List Nat) (stream : List Nat) :
    Option (List Event × List Nat) :=
  let is_safeload := bytes_to_int8 packet_header 1 == 1
  let total_payload_size := bytes_to_int32 packet_header 8
  let address := bytes_to_int16 packet_header 12
  match receive_amount stream total_payload_size with
  | none => none
  | some (payload_data, rest) =>
    let request :=
      if is_safeload then Request.SafeloadRequest address payload_data
      else Request.WriteRequest address payload_data
    some ([Event.sendRequest request], rest)

theorem receive_amount_append (p rest : List Nat) :
    receive_amount (p ++ rest) p.length = some (p, rest) := by
  unfold receive_amount
  rw [if_pos (by simp)]
  rw [List.take_left' rfl, List.drop_left' rfl]

/-- C1: a 14-byte write header declaring address `A` and payload length
`len P`, followed by the payload `P`, makes the write path emit exactly one
pipe send: a `WriteRequest A P` when the safeload flag byte at offset 1
is `0`, and a `SafeloadRequest A P` when it is `1`; the rest of the stream
is left untouched. -/
theorem handle_write_data_request (header P rest : List Nat) (A : Nat)
    (hlen : header.length = 14) (hA : A ≤ 0xFFFF)
    (haddr : bytes_to_int16 header 12 = A)
    (hsize : bytes_to_int32 header 8 = P.length) :
    (bytes_to_int8 header 1 = 0 →
      handle_write_data header (P ++ rest) =
        some ([Event.sendRequest (Request.WriteRequest A P)], rest)) ∧
    (bytes_to_int8 header 1 = 1 →
      handle_write_data header (P ++ rest) =
        some ([Event.sendRequest (Request.SafeloadRequest A P)], rest)) := by
  constructor <;> intro hflag <;>
    simp [handle_write_data, hsize, haddr, receive_amount_append, hflag]

/-- Witness for C1 at a concrete header, payload and address. -/
theorem handle_write_data_request_witness :
    (bytes_to_int8 [9, 0, 0, 0, 0, 0, 0, 0, 0, 0, 0, 3, 0, 16] 1 = 0 →
      handle_write_data [9, 0, 0, 0, 0, 0, 0, 0, 0, 0, 0, 3, 0, 16]
          ([170, 187, 204] ++ []) =
        some ([Event.sendRequest (Request.WriteRequest 16 [170, 187, 204])], [])) ∧
    (bytes_to_int8 [9, 0, 0, 0, 0, 0, 0, 0, 0, 0, 0, 3, 0, 16] 1 = 1 →
      handle_write_data [9, 0, 0, 0, 0, 0, 0, 0, 0, 0, 0, 3, 0, 16]
          ([170, 187, 204] ++ []) =
        some ([Event.sendRequest (Request.SafeloadRequest 16 [170, 187, 204])], [])) :=
  handle_write_data_request [9, 0, 0, 0, 0, 0, 0, 0, 0, 0, 0, 3, 0, 16]
    [170, 187, 204] [] 16 (by decide) (by decide) (by decide) (by decide)

/-- Construction of the read-response frame, from the body of
`SigmaStudioRequestHandler.handle_read_request` (lines 138-159): a zeroed
buffer of `14 + data_length` bytes, the header fields stored by the codec
helpers, and the payload assigned to `transmit_data[14:]` by slice
assignment. -/
def build_read_response (chip_address : Nat) (data_length : Nat)
    (address : Nat) (payload_data : List Nat) : List Nat :=
  let total_transmit_length := 14 + data_length
  let transmit_data := List.replicate total_transmit_length 0
  let transmit_data := int8_to_bytes 11 transmit_data 0
  let transmit_data := int32_to_bytes total_transmit_length transmit_data 1
  let transmit_data := int8_to_bytes chip_address transmit_data 5
  let transmit_data := int32_to_bytes data_length transmit_data 6
  let transmit_data := int16_to_bytes address transmit_data 10
  let transmit_data := int16_to_bytes 0 transmit_data 12
  let transmit_data := int16_to_bytes 0 transmit_data 13
  transmit_data.take 14 ++ payload_data

/-- `SigmaStudioRequestHandler.handle_read_request`: decode the read
header, send a `ReadRequest` on the pipe, block on the pipe until the
`ReadResult` arrives (its data is the `read_response` argument), then send
the encoded response frame on the socket. -/
def handle_read_request (packet_header : List Nat) (read_response : List Nat) :
    List Event :=
  let chip_address := bytes_to_int8 packet_header 5
  let data_length := bytes_to_int32 packet_header 6
  let address := bytes_to_int16 packet_header 10
  [Event.sendRequest (Request.ReadRequest address data_length),
   Event.recvResult read_response,
   Event.sendSocket
     (build_read_response chip_address data_length address read_response)]

/-- One iteration of `SigmaStudioRequestHandler.handle`'s `while True`
loop: receive the 14-byte header, dispatch on the command byte
`packet_header[0]` (`0x09` write, `0x0A` read, anything else logged and
ignored).  `results k` is the data of the `ReadResult` the pipe will
deliver for the `k`-th read of this connection.  `none` is the
`ConnectionError` exit. -/
def handleOne (stream : List Nat) (results : Nat → List Nat) (k : Nat) :
    Option (List Event × List Nat × Nat) :=
  match receive_amount stream 14 with
  | none => none
  | some (packet_header, rest) =>
    let command := packet_header.getD 0 0
    if command = 9 then
      match handle_write_data packet_header rest with
      | none => none
      | some (events, rest2) => some (events, rest2, k)
    else if command = 10 then
      some (handle_read_request packet_header (results k), rest, k + 1)
    else
      some ([], rest, k)

theorem receive_amount_some {stream : List Nat} {n : Nat} {p r : List Nat}
    (h : receive_amount stream n = some (p, r)) :
    p = stream.take n ∧ r = stream.drop n ∧ n ≤ stream.length := by
  unfold receive_amount at h
  by_cases hle : n ≤ stream.length
  · rw [if_pos hle] at h
    cases h
    exact ⟨rfl, rfl, hle⟩
  · rw [if_neg hle] at h
    cases h

theorem handle_write_data_some {header stream : List Nat}
    {events : List Event} {rest : List Nat}
    (h : handle_write_data header stream = some (events, rest)) :
    rest.length ≤ stream.length := by
  simp only [handle_write_data] at h
  cases hr : receive_amount stream (bytes_to_int32 header 8) with
  | none => rw [hr] at h; cases h
  | some pr =>
    obtain ⟨payload, r⟩ := pr
    rw [hr] at h
    obtain ⟨-, hrest, -⟩ := receive_amount_some hr
    cases h
    subst hrest
    simp

theorem handleOne_shrinks {stream : List Nat} {results : Nat → List Nat}
    {k : Nat} {events : List Event} {rest : List Nat} {k2 : Nat}
    (h : handleOne stream results k = some (events, rest, k2)) :
    rest.length < stream.length := by
  unfold handleOne at h
  cases hr : receive_amount stream 14 with
  | none => rw [hr] at h; cases h
  | some pr =>
    obtain ⟨header, r⟩ := pr
    rw [hr] at h
    obtain ⟨-, hrest, hle⟩ := receive_amount_some hr
    have hrlen : r.length < stream.length := by
      subst hrest
      simp only [List.length_drop]
      omega
    simp only at h
    by_cases h9 : header.getD 0 0 = 9
    · rw [if_pos h9] at h
      cases hw : handle_write_data header r with
      | none => rw [hw] at h; cases h
      | some er =>
        obtain ⟨e2, r2⟩ := er
        rw [hw] at h
        cases h
        exact lt_of_le_of_lt (handle_write_data_some hw) hrlen
    · rw [if_neg h9] at h
      by_cases h10 : header.getD 0 0 = 10
      · rw [if_pos h10] at h
        cases h
        exact hrlen
      · rw [if_neg h10] at h
        cases h
        exact hrlen

/-- `SigmaStudioRequestHandler.handle`: the per-connection loop.  It
repeats `handleOne` until a `ConnectionError` terminates the connection,
which appends the `closed` event. -/
def handle (stream : List Nat) (results : Nat → List Nat) (k : Nat) :
    List Event :=
  match h : handleOne stream results k with
  | none => [Event.closed]
  | some (events, rest, k2) => events ++ handle rest results k2
termination_by stream.length
decreasing_by exact handleOne_shrinks h

theorem handle_none {stream : List Nat} {results : Nat → List Nat} {k : Nat}
    (h : handleOne stream results k = none) :
    handle stream results k = [Event.closed] := by
  rw [handle]
  split
  · rfl
  · next heq => rw [h] at heq; cases heq

theorem handle_some {stream : List Nat} {results : Nat → List Nat} {k : Nat}
    {events : List Event} {rest : List Nat} {k2 : Nat}
    (h : handleOne stream results k = some (events, rest, k2)) :
    handle stream results k = events ++ handle rest results k2 := by
  rw [handle]
  split
  · next heq => rw [h] at heq; cases heq
  · next e r k3 heq =>
    rw [h] at heq
    cases heq
    rfl

theorem receive_amount_of_length (p rest : List Nat) {n : Nat}
    (h : p.length = n) : receive_amount (p ++ rest) n = some (p, rest) :=
  h ▸ receive_amount_append p rest

theorem handleOne_read {header rest : List Nat} {results : Nat → List Nat}
    {k : Nat} (hlen : header.length = 14) (hcmd : header.getD 0 0 = 10) :
    handleOne (header ++ rest) results k =
      some (handle_read_request header (results k), rest, k + 1) := by
  simp only [handleOne, receive_amount_of_length header rest hlen, hcmd]
  norm_num

theorem handleOne_unknown {header rest : List Nat} {results : Nat → List Nat}
    {k : Nat} (hlen : header.length = 14) (h9 : header.getD 0 0 ≠ 9)
    (h10 : header.getD 0 0 ≠ 10) :
    handleOne (header ++ rest) results k = some ([], rest, k) := by
  simp only [handleOne, receive_amount_of_length header rest hlen]
  rw [if_neg h9, if_neg h10]

/-- C4: on a read command the handler emits exactly one pipe send of the
decoded `ReadRequest`, then exactly one blocking pipe receive consuming the
next `ReadResult` (index `k`, advancing to `k + 1`: one-in-one-out), then
the socket send of the response frame — in that order and before the loop
returns to read the next header from the remaining stream. -/
theorem read_rendezvous_events (header rest : List Nat)
    (results : Nat → List Nat) (k : Nat)
    (hlen : header.length = 14) (hcmd : header.getD 0 0 = 10) :
    handle (header ++ rest) results k =
      [Event.sendRequest
         (Request.ReadRequest (bytes_to_int16 header 10) (bytes_to_int32 header 6)),
       Event.recvResult (results k),
       Event.sendSocket
         (build_read_response (bytes_to_int8 header 5) (bytes_to_int32 header 6)
           (bytes_to_int16 header 10) (results k))] ++
      handle rest results (k + 1) := by
  rw [handle_some (handleOne_read hlen hcmd)]
  rfl

/-- Witness for C4 at a concrete read header and read result. -/
theorem read_rendezvous_events_witness :
    handle ([10, 0, 0, 0, 0, 5, 0, 0, 0, 2, 0, 32, 0, 0] ++ [])
        (fun _ => [1, 2]) 0 =
      [Event.sendRequest
         (Request.ReadRequest
           (bytes_to_int16 [10, 0, 0, 0, 0, 5, 0, 0, 0, 2, 0, 32, 0, 0] 10)
           (bytes_to_int32 [10, 0, 0, 0, 0, 5, 0, 0, 0, 2, 0, 32, 0, 0] 6)),
       Event.recvResult ((fun _ : Nat => [1, 2]) 0),
       Event.sendSocket
         (build_read_response
           (bytes_to_int8 [10, 0, 0, 0, 0, 5, 0, 0, 0, 2, 0, 32, 0, 0] 5)
           (bytes_to_int32 [10, 0, 0, 0, 0, 5, 0, 0, 0, 2, 0, 32, 0, 0] 6)
           (bytes_to_int16 [10, 0, 0, 0, 0, 5, 0, 0, 0, 2, 0, 32, 0, 0] 10)
           ((fun _ : Nat => [1, 2]) 0))] ++
      handle [] (fun _ => [1, 2]) (0 + 1) :=
  read_rendezvous_events [10, 0, 0, 0, 0, 5, 0, 0, 0, 2, 0, 32, 0, 0] []
    (fun _ => [1, 2]) 0 (by decide) (by decide)

/-- C7: a header whose command byte is neither `0x09` nor `0x0A` is logged
and dropped: the handler consumes exactly the 14 header bytes, sends
nothing on the pipe or the socket, and the loop behaves on the rest of the
stream exactly as if the unknown command had not been there. -/
theorem unknown_command_skipped (header rest : List Nat)
    (results : Nat → List Nat) (k : Nat) (hlen : header.length = 14)
    (h9 : header.getD 0 0 ≠ 9) (h10 : header.getD 0 0 ≠ 10) :
    handle (header ++ rest) results k = handle rest results k := by
  rw [handle_some (handleOne_unknown hlen h9 h10)]
  rfl

/-- Witness for C7 at a concrete unknown command byte `0x0C`. -/
theorem unknown_command_skipped_witness :
    handle ([12, 0, 0, 0, 0, 0, 0, 0, 0, 0, 0, 0, 0, 0] ++ [7])
        (fun _ => []) 0 =
      handle [7] (fun _ => []) 0 :=
  unknown_command_skipped [12, 0, 0, 0, 0, 0, 0, 0, 0, 0, 0, 0, 0, 0] [7]
    (fun _ => []) 0 (by decide) (by decide) (by decide)

/-- C6: a complete write header that declares more payload bytes than the
connection ever delivers makes the handler close the connection: the only
event is `closed` — in particular no request is sent on the pipe and the
loop terminates. -/
theorem partial_payload_closes (header r : List Nat)
    (results : Nat → List Nat) (k : Nat) (hlen : header.length = 14)
    (hcmd : header.getD 0 0 = 9)
    (hshort : r.length < bytes_to_int32 header 8) :
    handle (header ++ r) results k = [Event.closed] := by
  apply handle_none
  simp only [handleOne, receive_amount_of_length header r hlen, hcmd]
  have hw : handle_write_data header r = none := by
    simp only [handle_write_data, receive_amount]
    rw [if_neg (by omega)]
  simp [hw]

/-- Witness for C6: a write header declaring 5 payload bytes while only 2
arrive before the peer closes. -/
theorem partial_payload_closes_witness :
    handle ([9, 0, 0, 0, 0, 0, 0, 0, 0, 0, 0, 5, 0, 16] ++ [170, 187])
        (fun _ => []) 0 = [Event.closed] :=
  partial_payload_closes [9, 0, 0, 0, 0, 0, 0, 0, 0, 0, 0, 5, 0, 16]
    [170, 187] (fun _ => []) 0 (by decide) (by decide) (by decide)

theorem handle_write_data_eq_none {header stream : List Nat} :
    handle_write_data header stream = none ↔
      receive_amount stream (bytes_to_int32 header 8) = none := by
  simp only [handle_write_data]
  cases hr : receive_amount stream (bytes_to_int32 header 8) with
  | none => simp
  | some pr => obtain ⟨payload, r⟩ := pr; simp

theorem handleOne_closed_not_mem {stream : List Nat}
    {results : Nat → List Nat} {k : Nat} {events : List Event}
    {rest : List Nat} {k2 : Nat}
    (h : handleOne stream results k = some (events, rest, k2)) :
    Event.closed ∉ events := by
  simp only [handleOne] at h
  cases hr : receive_amount stream 14 with
  | none => rw [hr] at h; cases h
  | some pr =>
    obtain ⟨header, r⟩ := pr
    rw [hr] at h
    simp only at h
    by_cases h9 : header.getD 0 0 = 9
    · rw [if_pos h9] at h
      cases hw : handle_write_data header r with
      | none => rw [hw] at h; cases h
      | some er =>
        obtain ⟨e2, r2⟩ := er
        rw [hw] at h
        cases h
        simp only [handle_write_data] at hw
        cases hw2 : receive_amount r (bytes_to_int32 header 8) with
        | none => rw [hw2] at hw; cases hw
        | some pr2 =>
          obtain ⟨payload, r3⟩ := pr2
          rw [hw2] at hw
          cases hw
          by_cases hs : (bytes_to_int8 header 1 == 1) = true <;> simp [hs]
    · rw [if_neg h9] at h
      by_cases h10 : header.getD 0 0 = 10
      · rw [if_pos h10] at h
        cases h
        simp [handle_read_request]
      · rw [if_neg h10] at h
        cases h
        simp

/-- C8: the connection loop ends exactly when a socket receive runs out of
bytes: one loop iteration raises `ConnectionError` (`none`) if and only if
the 14-byte header receive fails, or the command is a write (`0x09`) and
the declared payload receive fails; in that case the loop emits only the
`closed` event (socket shut down and closed) and exits, while on every
other input the iteration succeeds, never emits `closed`, and the loop
continues with the next header read. -/
theorem close_only_on_empty_recv (stream : List Nat)
    (results : Nat → List Nat) (k : Nat) :
    (handleOne stream results k = none ↔
      receive_amount stream 14 = none ∨
        ((stream.take 14).getD 0 0 = 9 ∧
          receive_amount (stream.drop 14)
            (bytes_to_int32 (stream.take 14) 8) = none)) ∧
    (handleOne stream results k = none →
      handle stream results k = [Event.closed]) ∧
    (∀ events rest k2, handleOne stream results k = some (events, rest, k2) →
      handle stream results k = events ++ handle rest results k2 ∧
        Event.closed ∉ events) := by
  refine ⟨?_, fun h => handle_none h,
    fun events rest k2 h => ⟨handle_some h, handleOne_closed_not_mem h⟩⟩
  simp only [handleOne]
  cases hr : receive_amount stream 14 with
  | none =>
    exact ⟨fun _ => Or.inl rfl, fun _ => rfl⟩
  | some pr =>
    obtain ⟨header, r⟩ := pr
    obtain ⟨hhd, hrst, -⟩ := receive_amount_some hr
    subst hhd
    subst hrst
    simp only
    by_cases h9 : (stream.take 14).getD 0 0 = 9
    · rw [if_pos h9]
      cases hw : handle_write_data (stream.take 14) (stream.drop 14) with
      | none =>
        exact iff_of_true rfl
          (Or.inr ⟨h9, handle_write_data_eq_none.mp hw⟩)
      | some er =>
        obtain ⟨e2, r2⟩ := er
        refine iff_of_false (by simp) ?_
        rintro (hn | ⟨-, hn⟩)
        · exact Option.noConfusion hn
        · rw [← handle_write_data_eq_none] at hn
          rw [hn] at hw; cases hw
    · rw [if_neg h9]
      by_cases h10 : (stream.take 14).getD 0 0 = 10
      · rw [if_pos h10]
        refine iff_of_false (by simp) ?_
        rintro (hn | ⟨h9', -⟩)
        · exact Option.noConfusion hn
        · exact h9 h9'
      · rw [if_neg h10]
        refine iff_of_false (by simp) ?_
        rintro (hn | ⟨h9', -⟩)
        · exact Option.noConfusion hn
        · exact h9 h9'

/-- Witness for C8 at the empty stream. -/
theorem close_only_on_empty_recv_witness :
    (handleOne [] (fun _ => []) 0 = none ↔
      receive_amount [] 14 = none ∨
        ((List.take 14 []).getD 0 0 = 9 ∧
          receive_amount (List.drop 14 [])
            (bytes_to_int32 (List.take 14 []) 8) = none)) ∧
    (handleOne [] (fun _ => []) 0 = none →
      handle [] (fun _ => []) 0 = [Event.closed]) ∧
    (∀ events rest k2, handleOne [] (fun _ => []) 0 = some (events, rest, k2) →
      handle [] (fun _ => []) 0 = events ++ handle rest (fun _ => []) k2 ∧
        Event.closed ∉ events) :=
  close_only_on_empty_recv [] (fun _ => []) 0

theorem replicate_fourteen_add (L : Nat) : List.replicate (14 + L) (0 : Nat) =
    0 :: 0 :: 0 :: 0 :: 0 :: 0 :: 0 :: 0 :: 0 :: 0 :: 0 :: 0 :: 0 :: 0 ::
      List.replicate L 0 := by
  rw [show 14 + L =
      List.length [0, 0, 0, 0, 0, 0, 0, 0, 0, 0, 0, 0, 0, 0] + L from rfl]
  rw [List.replicate_add]
  rfl

/-- The read-response frame in closed form: the 14 header bytes followed by
the payload.  The overlapping 2-byte stores at offsets 12 and 13 first grow
the buffer by one byte when the payload is empty, but the final slice
assignment of the payload at offset 14 discards everything past the
header either way. -/
theorem build_read_response_eq (c L a : Nat) (payload : List Nat) :
    build_read_response c L a payload =
      11 :: ((14 + L) / 16777216 % 256) :: ((14 + L) / 65536 % 256) ::
      ((14 + L) / 256 % 256) :: ((14 + L) % 256) :: (c % 256) ::
      (L / 16777216 % 256) :: (L / 65536 % 256) :: (L / 256 % 256) ::
      (L % 256) :: (a / 256 % 256) :: (a % 256) :: 0 :: 0 :: payload := by
  simp only [build_read_response]
  rw [replicate_fourteen_add]
  rfl

theorem getD_lt_of_bytes {header : List Nat} {i : Nat}
    (hbytes : ∀ b ∈ header, b < 256) (hlt : i < header.length) :
    header.getD i 0 < 256 := by
  rw [List.getD_eq_getElem header 0 hlt]
  exact hbytes _ (List.getElem_mem hlt)

/-- C2: for a 14-byte read header carrying chip address `C`, data length
`L` and register address `A`, once the pipe yields a `ReadResult` of
exactly `L` bytes the encoded response frame is exactly `14 + L` bytes
whose fields decode to: command byte `0x0B` at offset 0, total length
`14 + L` at offset 1, chip address `C` at offset 5, data length `L` at
offset 6, register address `A` at offset 10, status byte 0 at offset 12,
reserved byte 0 at offset 13, followed by the `L` data bytes. -/
theorem read_response_frame_fields (header result : List Nat) (C L A : Nat)
    (hlen : header.length = 14) (hbytes : ∀ b ∈ header, b < 256)
    (hC : bytes_to_int8 header 5 = C) (hL : bytes_to_int32 header 6 = L)
    (hA : bytes_to_int16 header 10 = A) (hres : result.length = L)
    (hbound : 14 + L < 4294967296) :
    (build_read_response C L A result).length = 14 + L ∧
    bytes_to_int8 (build_read_response C L A result) 0 = 11 ∧
    bytes_to_int32 (build_read_response C L A result) 1 = 14 + L ∧
    bytes_to_int8 (build_read_response C L A result) 5 = C ∧
    bytes_to_int32 (build_read_response C L A result) 6 = L ∧
    bytes_to_int16 (build_read_response C L A result) 10 = A ∧
    bytes_to_int8 (build_read_response C L A result) 12 = 0 ∧
    bytes_to_int8 (build_read_response C L A result) 13 = 0 ∧
    (build_read_response C L A result).drop 14 = result := by
  have hC256 : C < 256 := by
    rw [← hC]
    exact getD_lt_of_bytes hbytes (by omega)
  have hA65536 : A < 65536 := by
    have h10 : header.getD 10 0 < 256 := getD_lt_of_bytes hbytes (by omega)
    have h11 : header.getD (10 + 1) 0 < 256 := getD_lt_of_bytes hbytes (by omega)
    rw [← hA]
    unfold bytes_to_int16
    omega
  rw [build_read_response_eq]
  refine ⟨?_, rfl, ?_, ?_, ?_, ?_, rfl, rfl, rfl⟩
  · simp only [List.length_cons, hres]
    omega
  · show 16777216 * ((14 + L) / 16777216 % 256) +
      65536 * ((14 + L) / 65536 % 256) + 256 * ((14 + L) / 256 % 256) +
      (14 + L) % 256 = 14 + L
    omega
  · show C % 256 = C
    exact Nat.mod_eq_of_lt hC256
  · show 16777216 * (L / 16777216 % 256) + 65536 * (L / 65536 % 256) +
      256 * (L / 256 % 256) + L % 256 = L
    omega
  · show 256 * (A / 256 % 256) + A % 256 = A
    omega

/-- Witness for C2: a concrete read header with chip address 5, data
length 2, register address 32, and a two-byte read result. -/
theorem read_response_frame_fields_witness :
    (build_read_response 5 2 32 [1, 2]).length = 14 + 2 ∧
    bytes_to_int8 (build_read_response 5 2 32 [1, 2]) 0 = 11 ∧
    bytes_to_int32 (build_read_response 5 2 32 [1, 2]) 1 = 14 + 2 ∧
    bytes_to_int8 (build_read_response 5 2 32 [1, 2]) 5 = 5 ∧
    bytes_to_int32 (build_read_response 5 2 32 [1, 2]) 6 = 2 ∧
    bytes_to_int16 (build_read_response 5 2 32 [1, 2]) 10 = 32 ∧
    bytes_to_int8 (build_read_response 5 2 32 [1, 2]) 12 = 0 ∧
    bytes_to_int8 (build_read_response 5 2 32 [1, 2]) 13 = 0 ∧
    (build_read_response 5 2 32 [1, 2]).drop 14 = [1, 2] :=
  read_response_frame_fields [10, 0, 0, 0, 0, 5, 0, 0, 0, 2, 0, 32, 0, 0]
    [1, 2] 5 2 32 (by decide) (by decide) (by decide) (by decide) (by decide)
    (by decide) (by decide)

/-- A well-formed SigmaStudio command as the host sends it on the wire: a
block or safeload write of `data` to `address`, or a read of `length`
bytes from `address`. -/
inductive Command where
  | write (safe : Bool) (address : Nat) (data : List Nat)
  | read (address : Nat) (length : Nat)

/-- The 14-byte write header of the wire layout: command byte `0x09`, the
safeload flag at offset 1, the payload length at offset 8 (big-endian
uint32) and the register address at offset 12 (big-endian uint16); fields
the handler ignores are zero. -/
def encodeWriteHeader (safe : Bool) (address : Nat) (payloadLength : Nat) :
    List Nat :=
  [9, if safe then 1 else 0, 0, 0, 0, 0, 0, 0,
   payloadLength / 16777216 % 256, payloadLength / 65536 % 256,
   payloadLength / 256 % 256, payloadLength % 256,
   address / 256 % 256, address % 256]

/-- The 14-byte read header of the wire layout: command byte `0x0A`, the
requested data length at offset 6 (big-endian uint32) and the register
address at offset 10 (big-endian uint16); ignored fields are zero. -/
def encodeReadHeader (address : Nat) (readLength : Nat) : List Nat :=
  [10, 0, 0, 0, 0, 0,
   readLength / 16777216 % 256, readLength / 65536 % 256,
   readLength / 256 % 256, readLength % 256,
   address / 256 % 256, address % 256, 0, 0]

/-- The byte sequence a command occupies in the connection's stream. -/
def encodeCommand : Command → List Nat
  | Command.write safe address data =>
    encodeWriteHeader safe address data.length ++ data
  | Command.read address readLength => encodeReadHeader address readLength

/-- The concatenated byte stream of a sequence of commands. -/
def encodeCommands : List Command → List Nat
  | [] => []
  | c :: cs => encodeCommand c ++ encodeCommands cs

/-- Field-width bounds of the wire format: a 16-bit register address and a
32-bit payload or data length. -/
def ValidCommand : Command → Prop
  | Command.write _ address data =>
    address < 65536 ∧ data.length < 4294967296
  | Command.read address readLength =>
    address < 65536 ∧ readLength < 4294967296

/-- The request each command stands for on the chip-owning side. -/
def semReq : Command → Request
  | Command.write true address data => Request.SafeloadRequest address data
  | Command.write false address data => Request.WriteRequest address data
  | Command.read address readLength => Request.ReadRequest address readLength

/-- How many `ReadResult`s a command consumes from the pipe. -/
def readCount : Command → Nat
  | Command.write _ _ _ => 0
  | Command.read _ _ => 1

/-- The pipe sends of a trace, in order. -/
def sentRequests (trace : List Event) : List Request :=
  trace.filterMap fun e =>
    match e with
    | Event.sendRequest r => some r
    | _ => none

theorem handle_command (c : Command) (s : List Nat)
    (results : Nat → List Nat) (k : Nat) (hc : ValidCommand c) :
    sentRequests (handle (encodeCommand c ++ s) results k) =
      semReq c :: sentRequests (handle s results (k + readCount c)) := by
  cases c with
  | write safe address data =>
    obtain ⟨ha, hd⟩ := hc
    have hassoc : encodeCommand (Command.write safe address data) ++ s =
        encodeWriteHeader safe address data.length ++ (data ++ s) := by
      simp [encodeCommand, List.append_assoc]
    have hhl : (encodeWriteHeader safe address data.length).length = 14 := by
      simp [encodeWriteHeader]
    have hdec : bytes_to_int32 (encodeWriteHeader safe address data.length) 8 =
        data.length := by
      show 16777216 * (data.length / 16777216 % 256) +
        65536 * (data.length / 65536 % 256) +
        256 * (data.length / 256 % 256) + data.length % 256 = data.length
      omega
    have hwd : handle_write_data (encodeWriteHeader safe address data.length)
        (data ++ s) =
        some ([Event.sendRequest (semReq (Command.write safe address data))],
          s) := by
      have haddr : bytes_to_int16 (encodeWriteHeader safe address data.length)
          12 = address := by
        show 256 * (address / 256 % 256) + address % 256 = address
        omega
      simp only [handle_write_data, hdec, receive_amount_append, haddr]
      cases safe with
      | true => rfl
      | false => rfl
    have h1 : handleOne
        (encodeWriteHeader safe address data.length ++ (data ++ s)) results k =
        some ([Event.sendRequest (semReq (Command.write safe address data))],
          s, k) := by
      simp only [handleOne, receive_amount_of_length _ _ hhl]
      rw [if_pos
        (show (encodeWriteHeader safe address data.length).getD 0 0 = 9
          from rfl)]
      rw [hwd]
    rw [hassoc, handle_some h1]
    simp only [sentRequests, List.filterMap_append, readCount, Nat.add_zero]
    rfl
  | read address readLength =>
    obtain ⟨ha, hl⟩ := hc
    have hhl : (encodeReadHeader address readLength).length = 14 := by
      simp [encodeReadHeader]
    have h1 : handleOne (encodeReadHeader address readLength ++ s) results k =
        some (handle_read_request (encodeReadHeader address readLength)
          (results k), s, k + 1) :=
      handleOne_read hhl
        (show (encodeReadHeader address readLength).getD 0 0 = 10 from rfl)
    rw [show encodeCommand (Command.read address readLength) ++ s =
        encodeReadHeader address readLength ++ s from rfl]
    rw [handle_some h1]
    simp only [sentRequests, List.filterMap_append]
    have haddr : bytes_to_int16 (encodeReadHeader address readLength) 10 =
        address := by
      show 256 * (address / 256 % 256) + address % 256 = address
      omega
    have hlen2 : bytes_to_int32 (encodeReadHeader address readLength) 6 =
        readLength := by
      show 16777216 * (readLength / 16777216 % 256) +
        65536 * (readLength / 65536 % 256) +
        256 * (readLength / 256 % 256) + readLength % 256 = readLength
      omega
    simp only [handle_read_request, haddr, hlen2]
    rfl

/-- C5: a sequence of well-formed commands sent on one connection is
delivered on the pipe as exactly the corresponding requests, in the order
the commands appeared in the byte stream. -/
theorem requests_in_order (cmds : List Command) (results : Nat → List Nat)
    (k : Nat) (hv : ∀ c ∈ cmds, ValidCommand c) :
    sentRequests (handle (encodeCommands cmds) results k) =
      cmds.map semReq := by
  induction cmds generalizing k with
  | nil =>
    have h0 : handleOne ([] : List Nat) results k = none := by
      simp [handleOne, receive_amount]
    rw [show encodeCommands [] = ([] : List Nat) from rfl, handle_none h0]
    rfl
  | cons c cs ih =>
    rw [show encodeCommands (c :: cs) = encodeCommand c ++ encodeCommands cs
      from rfl]
    rw [handle_command c _ results k (hv c (by simp))]
    rw [ih _ (fun c2 hc2 => hv c2 (by simp [hc2]))]
    rfl

/-- Witness for C5: a block write followed by a read, delivered in order. -/
theorem requests_in_order_witness :
    sentRequests
        (handle (encodeCommands
          [Command.write false 16 [170], Command.read 32 1])
          (fun _ => [1]) 0) =
      List.map semReq [Command.write false 16 [170], Command.read 32 1] :=
  requests_in_order [Command.write false 16 [170], Command.read 32 1]
    (fun _ => [1]) 0
    (by
      intro c hc
      simp only [List.mem_cons, List.not_mem_nil, or_false] at hc
      rcases hc with rfl | rfl
      · exact ⟨by norm_num, by norm_num⟩
      · exact ⟨by norm_num, by norm_num⟩)

/-- Modelled from the spec: `db_to_linear` of
`sigmadsp/helper/conversion.py` (not under `src/`): the decibel to linear
gain conversion `linear = 10 ^ (dB / 20)`, over real numbers standing for
Python floats. -/
noncomputable def db_to_linear (value_db : ℝ) : ℝ :=
  (10 : ℝ) ^ (value_db / 20)

/-- Modelled from the spec: `linear_to_db` of
`sigmadsp/helper/conversion.py` (not under `src/`): the inverse conversion
`dB = 20 * log10 linear`. -/
noncomputable def linear_to_db (value_linear : ℝ) : ℝ :=
  20 * Real.logb 10 value_linear

/-- Modelled from the spec: `clamp` of `sigmadsp/helper/conversion.py`
(not under `src/`): restrict `value` to the interval
`[min_value, max_value]` and return the result — Python floats are
immutable, so the caller must use the return value. -/
noncomputable def clamp (value min_value max_value : ℝ) : ℝ :=
  max min_value (min value max_value)

namespace Dsp

/-- `Pin` of `sigmadsp/hardware/dsp.py`: a named, numbered DSP pin.
Dataclass equality compares the declared fields; the `gpiozero` control
object created in `__post_init__` is an external hardware handle outside
the model. -/
structure Pin where
  name : String
  number : Nat
deriving DecidableEq

/-- `Dsp.get_pin_by_name`: the first pin in the list with the given name,
if any. -/
def get_pin_by_name (pins : List Pin) (name : String) : Option Pin :=
  pins.find? fun pin => pin.name == name

/-- `Dsp.has_pin`: whether a pin with this pin's name is in the list. -/
def has_pin (pins : List Pin) (pin : Pin) : Bool :=
  (get_pin_by_name pins pin.name).isSome

/-- `Dsp.add_pin`: append the pin only when no pin with its name exists. -/
def add_pin (pins : List Pin) (pin : Pin) : List Pin :=
  if has_pin pins pin then pins else pins ++ [pin]

/-- `Dsp.remove_pin_by_name`: look up the pin by name and, when found,
remove it from the list (`list.remove` deletes the first equal element). -/
def remove_pin_by_name (pins : List Pin) (name : String) : List Pin :=
  match get_pin_by_name pins name with
  | some pin => pins.erase pin
  | none => pins

/-- A call against the pin list: `add_pin` or `remove_pin_by_name`. -/
inductive PinOp where
  | add (pin : Pin)
  | removeByName (name : String)

def apply_pin_op (pins : List Pin) : PinOp → List Pin
  | PinOp.add pin => add_pin pins pin
  | PinOp.removeByName name => remove_pin_by_name pins name

/-- The pin list after a sequence of calls, starting from the empty list
`self.pins = []` of `Dsp.__init__`. -/
def run_pin_ops (ops : List PinOp) : List Pin :=
  ops.foldl apply_pin_op []

theorem add_pin_nodup {pins : List Pin} {pin : Pin}
    (h : (pins.map Pin.name).Nodup) :
    ((add_pin pins pin).map Pin.name).Nodup := by
  unfold add_pin has_pin get_pin_by_name
  cases hf : pins.find? (fun q => q.name == pin.name) with
  | some q => simpa using h
  | none =>
    have hnot : ∀ q ∈ pins, q.name ≠ pin.name := by
      intro q hq
      have := List.find?_eq_none.mp hf q hq
      simpa using this
    simp only [Option.isSome_none, Bool.false_eq_true, if_false,
      List.map_append, List.map_cons, List.map_nil]
    rw [List.nodup_append]
    refine ⟨h, List.nodup_singleton _, ?_⟩
    intro a ha hb
    simp only [List.mem_map] at ha
    obtain ⟨q, hq, rfl⟩ := ha
    simp only [List.mem_singleton] at hb
    exact hnot q hq hb

theorem remove_pin_nodup {pins : List Pin} {name : String}
    (h : (pins.map Pin.name).Nodup) :
    ((remove_pin_by_name pins name).map Pin.name).Nodup := by
  unfold remove_pin_by_name
  cases hf : get_pin_by_name pins name with
  | none => exact h
  | some pin =>
    exact ((pins.erase_sublist pin).map Pin.name).nodup h

theorem run_pin_ops_nodup_from (ops : List PinOp) :
    ∀ pins : List Pin, (pins.map Pin.name).Nodup →
      (((ops.foldl apply_pin_op pins)).map Pin.name).Nodup := by
  induction ops with
  | nil => exact fun pins h => h
  | cons op ops ih =>
    intro pins h
    rw [List.foldl_cons]
    apply ih
    cases op with
    | add pin => exact add_pin_nodup h
    | removeByName name => exact remove_pin_nodup h

/-- C9: after any sequence of `add_pin` and `remove_pin_by_name` calls
starting from the empty pin list, the pin names are pairwise distinct:
`add_pin` appends only when `get_pin_by_name` finds no pin with that name,
and removal preserves distinctness. -/
theorem pin_names_nodup (ops : List PinOp) :
    ((run_pin_ops ops).map Pin.name).Nodup :=
  run_pin_ops_nodup_from ops [] (by simp)

end Dsp

namespace Dsp

/-- The observable register state of a DSP: the parameter value most
recently stored at each address. -/
structure DspState where
  params : Nat → ℝ

/-- The observable contract of the abstract `Dsp.set_parameter_value`:
store `value` in the register at `address`. -/
def set_parameter_value (value : ℝ) (address : Nat) (s : DspState) :
    DspState :=
  ⟨Function.update s.params address value⟩

/-- What the abstract `Dsp.get_parameter_value` may return:
`Union[float, int, None]`. -/
inductive ParamValue where
  | pfloat (value : ℝ)
  | pint (value : ℤ)
  | pnone

/-- `Dsp.set_volume`: convert `value_db` to a linear gain, call `clamp` on
it — the source calls `clamp(value_linear, 0, 1)` on its own line and
discards the returned value — then store the gain via
`set_parameter_value` and return it converted back to decibels. -/
noncomputable def set_volume (value_db : ℝ) (address : Nat) (s : DspState) :
    DspState × ℝ :=
  let value_linear := db_to_linear value_db
  let _ := clamp value_linear 0 1
  (set_parameter_value value_linear address s, linear_to_db value_linear)

/-- `Dsp.adjust_volume`: read the current volume through
`get_parameter_value` (chip-specific, modelled as the function `get`),
raise `TypeError` (`Except.error`) unless the result is a float, multiply
by the linear adjustment, call `clamp` discarding its return value as in
`set_volume`, store the product, and return it in decibels.  The first
component is the register state after the call. -/
noncomputable def adjust_volume (get : Nat → ParamValue) (adjustment_db : ℝ)
    (address : Nat) (s : DspState) : DspState × Except Unit ℝ :=
  match get address with
  | ParamValue.pfloat current_volume =>
    let linear_adjustment := db_to_linear adjustment_db
    let new_volume := current_volume * linear_adjustment
    let _ := clamp new_volume 0 1
    (set_parameter_value new_volume address s,
      Except.ok (linear_to_db new_volume))
  | _ => (s, Except.error ())

/-- C3 is refuted by the code: `set_volume` at `+6 dB` computes a linear
gain strictly greater than 1; `clamp` would reduce it to exactly 1, but
the source discards `clamp`'s return value, so the value handed to
`set_parameter_value` — and hence stored — is the unclamped gain, outside
`[0, 1]`. -/
theorem set_volume_stores_unclamped :
    1 < db_to_linear 6 ∧
    clamp (db_to_linear 6) 0 1 = 1 ∧
    ((set_volume 6 0 ⟨fun _ => 0⟩).1).params 0 = db_to_linear 6 := by
  have h1 : (1 : ℝ) < db_to_linear 6 := by
    unfold db_to_linear
    rw [Real.one_lt_rpow_iff_of_pos (by norm_num)]
    left
    exact ⟨by norm_num, by norm_num⟩
  refine ⟨h1, ?_, ?_⟩
  · unfold clamp
    rw [min_eq_right h1.le, max_eq_right zero_le_one]
  · simp [set_volume, set_parameter_value]

/-- C10: whenever `get_parameter_value` returns a value that is not a
float, `adjust_volume` raises `TypeError` before any
`set_parameter_value` call: the outcome is the error and the register
state is unchanged. -/
theorem adjust_volume_type_error (get : Nat → ParamValue)
    (adjustment_db : ℝ) (address : Nat) (s : DspState)
    (h : ∀ x : ℝ, get address ≠ ParamValue.pfloat x) :
    adjust_volume get adjustment_db address s = (s, Except.error ()) := by
  unfold adjust_volume
  cases hg : get address with
  | pfloat x => exact (h x hg).elim
  | pint n => rfl
  | pnone => rfl

/-- Witness for C10 at a `None` register read. -/
theorem adjust_volume_type_error_witness :
    adjust_volume (fun _ => ParamValue.pnone) 0 0 ⟨fun _ => 0⟩ =
      (⟨fun _ => 0⟩, Except.error ()) :=
  adjust_volume_type_error (fun _ => ParamValue.pnone) 0 0 ⟨fun _ => 0⟩
    (fun x h => ParamValue.noConfusion h)

end Dsp
